import Mathlib

/-!
# ansible-agent: the request-to-process pipeline of `ansible/server.go`

A shallow embedding of `Server.ValidateHeader`, `Server.ExecCommand` and
`Server.PutFile` (file `ansible/server.go`) and of the token set-up done by
`realMain` (file `main.go`, with the `HttpAuth` section of `conf/config.go`).

Modelling conventions

* Go strings that come from the request or from an error are Lean `String`s.
  The only byte-level operations the handlers perform on them are equality,
  concatenation, a prefix test and a split on the ASCII space, all of which
  agree on code points and on UTF-8 bytes.  The output and error streams of the
  child are kept as raw bytes, because `json.Marshal` does not pass every
  byte sequence through: the fields of the marshalled result are the text a
  JSON reader gets back.
* The handlers are stateful: they create, write, reopen and remove files and
  they spawn a child process.  Storage is a finite map `Files` from paths to
  contents, threaded explicitly; every effect is also appended to a trace of
  `Event`s, so that "nothing was spawned, no file was touched" is the statement
  that the trace is empty.
* Everything the operating system decides (whether a temporary file can be
  created and under which name, whether a copy runs short, what the child
  process does) is supplied by an explicit environment `Env`.
* A Go run-time panic is an explicit outcome; deferred calls run on every way
  out of the function, a panic included.
* The first `req.FormValue` of a handler makes the HTTP library parse the
  body, and for a multipart body the library writes the file parts that do not
  fit in memory to temporary files of its own; which files it writes is the
  environment's decision, and writing them is an effect of the handler.
* The router, the logging and recovery middleware, TLS and the directory-service
  authenticator are outside the model.
-/

namespace Ansible

/-! ## Strings and the standard-library calls used by the handlers -/

/-- Model of `strings.Split(s, " ")` on the characters of `s`: the maximal
pieces of `s` between occurrences of the space, in order; the empty string
yields the one-element list holding the empty string. -/
def Split : List Char → List (List Char)
  | [] => [[]]
  | c :: cs =>
    if c = ' ' then [] :: Split cs
    else
      match Split cs with
      | [] => [[c]]
      | piece :: rest => (c :: piece) :: rest

/-- Model of `strings.HasPrefix(s, p)`. -/
def HasPrefix (s p : String) : Bool :=
  p.data.isPrefixOf s.data

/-- Value of a decimal digit, `none` for any other character. -/
def digit (c : Char) : Option Nat :=
  if '0'.toNat ≤ c.toNat ∧ c.toNat ≤ '9'.toNat then some (c.toNat - '0'.toNat) else none

/-- Reads a run of decimal digits, most significant first, on top of the
accumulator `acc`; `none` when a character is not a digit. -/
def digits : Nat → List Char → Option Nat
  | acc, [] => some acc
  | acc, c :: cs =>
    match digit c with
    | none => none
    | some d => digits (acc * 10 + d) cs

/-- Model of `strconv.Atoi` on a 64-bit platform: an optional sign followed by
one or more decimal digits, the value lying in the range of `int`.  `none`
stands for a non-nil error. -/
def Atoi (s : String) : Option Int :=
  let neg : Bool := s.data.head? = some '-'
  let body : List Char :=
    match s.data with
    | '-' :: r => r
    | '+' :: r => r
    | cs => cs
  if body = [] then none
  else
    match digits 0 body with
    | none => none
    | some n =>
      if neg then (if n ≤ 2 ^ 63 then some (-(n : Int)) else none)
      else (if n < 2 ^ 63 then some (n : Int) else none)

/-- First value stored under `key`, the empty string when there is none: the
behaviour shared by `Header.Get` and `Request.FormValue`. -/
def firstValue (key : String) : List (String × String) → String
  | [] => ""
  | (k, v) :: rest => if k = key then v else firstValue key rest

/-! ## Bytes and UTF-8 (`unicode/utf8`, as used by `encoding/json`) -/

/-- A byte. -/
abbrev Byte := Fin 256

/-- The byte with value `n` modulo 256. -/
def byte (n : Nat) : Byte := ⟨n % 256, Nat.mod_lt _ (by decide)⟩

/-- The replacement character `utf8.RuneError`, U+FFFD. -/
def RuneError : Char := Char.ofNat 0xFFFD

/-- Whether `b` is a continuation byte, `0x80` to `0xBF`. -/
def isCont (b : Byte) : Bool :=
  decide (0x80 ≤ b.val ∧ b.val ≤ 0xBF)

/-- Whether `b1` may follow the leading byte `b0` (the table `acceptRanges`):
the ranges are narrowed after `0xE0`, `0xED`, `0xF0` and `0xF4`, which rules
out overlong forms, surrogates and values above U+10FFFF. -/
def accept (b0 b1 : Byte) : Bool :=
  if b0.val = 0xE0 then decide (0xA0 ≤ b1.val ∧ b1.val ≤ 0xBF)
  else if b0.val = 0xED then decide (0x80 ≤ b1.val ∧ b1.val ≤ 0x9F)
  else if b0.val = 0xF0 then decide (0x90 ≤ b1.val ∧ b1.val ≤ 0xBF)
  else if b0.val = 0xF4 then decide (0x80 ≤ b1.val ∧ b1.val ≤ 0x8F)
  else isCont b1

/-- Model of `utf8.DecodeRune`: the first character of the byte sequence and
the number of bytes it takes; `(RuneError, 1)` when the sequence does not start
with a valid encoding. -/
def DecodeRune : List Byte → Char × Nat
  | [] => (RuneError, 0)
  | b0 :: rest =>
    if b0.val < 0x80 then (Char.ofNat b0.val, 1)
    else if 0xC2 ≤ b0.val ∧ b0.val ≤ 0xDF then
      match rest with
      | b1 :: _ =>
        if isCont b1 then (Char.ofNat ((b0.val - 0xC0) * 64 + (b1.val - 0x80)), 2)
        else (RuneError, 1)
      | _ => (RuneError, 1)
    else if 0xE0 ≤ b0.val ∧ b0.val ≤ 0xEF then
      match rest with
      | b1 :: b2 :: _ =>
        if accept b0 b1 ∧ isCont b2 then
          (Char.ofNat ((b0.val - 0xE0) * 4096 + (b1.val - 0x80) * 64 + (b2.val - 0x80)), 3)
        else (RuneError, 1)
      | _ => (RuneError, 1)
    else if 0xF0 ≤ b0.val ∧ b0.val ≤ 0xF4 then
      match rest with
      | b1 :: b2 :: b3 :: _ =>
        if accept b0 b1 ∧ isCont b2 ∧ isCont b3 then
          (Char.ofNat ((b0.val - 0xF0) * 262144 + (b1.val - 0x80) * 4096 +
            (b2.val - 0x80) * 64 + (b3.val - 0x80)), 4)
        else (RuneError, 1)
      | _ => (RuneError, 1)
    else (RuneError, 1)

/-- The loop over a Go string in `encoding/json`: decode a character, step over
its bytes, go on; a byte that starts no valid encoding gives U+FFFD and a step
of one byte.  `skip` is the number of bytes still to step over. -/
def decodeFrom : Nat → List Byte → List Char
  | _, [] => []
  | skip + 1, _ :: rest => decodeFrom skip rest
  | 0, b0 :: rest =>
    (DecodeRune (b0 :: rest)).1 :: decodeFrom ((DecodeRune (b0 :: rest)).2 - 1) rest

/-- The text a JSON reader gets back for a Go string marshalled by
`json.Marshal`: the string read as UTF-8, every byte that is not part of a
valid encoding replaced by U+FFFD. -/
def jsonText (bs : List Byte) : String :=
  String.mk (decodeFrom 0 bs)

/-- Model of `utf8.EncodeRune`: the UTF-8 encoding of a character. -/
def encodeRune (c : Char) : List Byte :=
  if c.toNat < 0x80 then [byte c.toNat]
  else if c.toNat < 0x800 then [byte (0xC0 + c.toNat / 64), byte (0x80 + c.toNat % 64)]
  else if c.toNat < 0x10000 then
    [byte (0xE0 + c.toNat / 4096), byte (0x80 + c.toNat / 64 % 64), byte (0x80 + c.toNat % 64)]
  else
    [byte (0xF0 + c.toNat / 262144), byte (0x80 + c.toNat / 4096 % 64),
     byte (0x80 + c.toNat / 64 % 64), byte (0x80 + c.toNat % 64)]

/-- The bytes of a text: the UTF-8 encodings of its characters, in order. -/
def utf8 : List Char → List Byte
  | [] => []
  | c :: cs => encodeRune c ++ utf8 cs

/-! ## Requests -/

/-- What `Request.FormFile` hands back: an opened file part, the sentinel
`http.ErrMissingFile` (with a nil file), or some other error (with a nil
file). -/
inductive FormFileResult where
  | file (content : String)
  | ErrMissingFile
  | failed (err : String)
  deriving DecidableEq

/-- The parts of an `http.Request` the handlers read.  `MultipartErr` is the
error of parsing the body as a multipart form, if any (a body that is not
multipart at all gives such an error). -/
structure Request where
  Header : List (String × String)
  Form : List (String × String)
  MultipartErr : Option String
  File : List (String × String)

/-- Model of `req.Header.Get(key)`. -/
def Request.HeaderGet (req : Request) (key : String) : String :=
  firstValue key req.Header

/-- Model of `req.FormValue(key)`. -/
def Request.FormValue (req : Request) (key : String) : String :=
  firstValue key req.Form

/-- Model of `req.FormFile(key)`. -/
def Request.FormFile (req : Request) (key : String) : FormFileResult :=
  match req.MultipartErr with
  | some e => .failed e
  | none =>
    match req.File.find? (fun p => p.1 == key) with
    | some p => .file p.2
    | none => .ErrMissingFile

/-! ## Storage, child processes and the environment -/

/-- Storage: paths with their contents. -/
abbrev Files := List (String × String)

/-- Whether a path is present in storage. -/
def fileExists (path : String) (fs : Files) : Bool :=
  fs.any (fun e => e.1 == path)

/-- Storage after `path` has been given the content `data`. -/
def writeFile (path data : String) (fs : Files) : Files :=
  (path, data) :: fs.filter (fun e => e.1 != path)

/-- Storage after `os.Remove(path)`. -/
def removeFile (path : String) (fs : Files) : Files :=
  fs.filter (fun e => e.1 != path)

/-- Content stored under `path`. -/
def readFile (path : String) (fs : Files) : String :=
  firstValue path fs

/-- How `cmd.Run()` ended. `exited 0` without any trouble copying the streams
is the only outcome for which `Run` returns a nil error. -/
inductive RunOutcome where
  | startFailed
  | exited (code : Nat)
  | signaled
  | copyFailed
  deriving DecidableEq

/-- What running the child produced: how it ended and the bytes captured in
the buffers `stdout` and `stderr`. -/
structure RunResult where
  outcome : RunOutcome
  stdout : List Byte
  stderr : List Byte
  deriving DecidableEq

/-- Whether `cmd.Run()` returned a non-nil error. -/
def RunResult.failed (r : RunResult) : Bool :=
  r.outcome != RunOutcome.exited 0

/-- Effects of a handler, in the order they happen: a temporary file written
by the HTTP library while it parses the body, such a file opened by
`req.FormFile` to read a part from it, a temporary file created by
`ioutil.TempFile`, a file created by `os.Create`, data written into a file, the
temporary file reopened for reading, a file removed, and `cmd.Run()` called on
an argument vector with a standard input, together with what it gave (which
may be that the child could not be started). -/
inductive Event where
  | spill (name : String) (data : String)
  | openPart (name : String)
  | tempFile (name : String)
  | create (path : String)
  | write (path : String) (data : String)
  | reopen (path : String)
  | remove (path : String)
  | spawn (argv : List String) (stdin : Option String) (result : RunResult)
  deriving DecidableEq

/-- A temporary file that the HTTP library writes while it parses a multipart
body: its name, what is written into it, and the form fields whose file parts
it holds. -/
structure Spilled where
  name : String
  data : String
  fields : List String

/-- The decisions of the operating system and of the libraries.

* `Spill req`: the temporary files that `ParseMultipartForm` writes while it
  reads the body of `req`: they hold the file parts of a multipart body that
  do not fit in the 32 MiB it keeps in memory.
* `AtoiError arg`: the text of the error `strconv.Atoi` returns on `arg`.
* `TempFile fs`: `ioutil.TempFile(os.TempDir(), "ansible-stdin")`, an error
  text or the name of the file it created.
* `copyFail path data`: `io.Copy` of `data` into the file `path`; `none` when
  the whole of `data` is written, `some (n, e)` when it stops with error `e`
  after `n` characters.
* `openFail path`: the error of `os.Open(path)`, if any.
* `createFail path`: the error of `os.Create(path)`, if any.
* `Run argv stdin fs`: `cmd.Run()` for the argument vector `argv`, with the
  given standard input attached (`none`: no input), in storage `fs`; it gives
  the result and the storage the child leaves behind. -/
structure Env where
  Spill : Request → List Spilled
  AtoiError : String → String
  TempFile : Files → Except String String
  copyFail : String → String → Option (Nat × String)
  openFail : String → Option String
  createFail : String → Option String
  Run : List String → Option String → Files → RunResult × Files

/-- The part of `data` that `io.Copy` gets into the file `path`, and its error. -/
def Env.Copy (env : Env) (path data : String) : String × Option String :=
  match env.copyFail path data with
  | none => (data, none)
  | some (n, e) => (String.mk (data.data.take n), some e)

/-! ## Responses -/

def StatusOK : Nat := 200
def StatusUnauthorized : Nat := 401
def StatusInternalServerError : Nat := 500

/-- The map `data` of lines 160-168, with its four keys; the values under
`stdin`, `stdout` and `stderr` are Go strings, that is, bytes. -/
structure ResultMap where
  status : Nat
  stdin : List Byte
  stdout : List Byte
  stderr : List Byte
  deriving DecidableEq

/-- The JSON object that `ExecCommand` sends, as a JSON reader gets it back. -/
structure ExecutionResult where
  status : Nat
  stdin : String
  stdout : String
  stderr : String
  deriving DecidableEq

/-- Model of `json.Marshal(&data)`: the integer is kept, each string is read
as UTF-8 with its invalid bytes replaced.  It cannot fail on such a map. -/
def Marshal (data : ResultMap) : ExecutionResult :=
  { status := data.status
    stdin := jsonText data.stdin
    stdout := jsonText data.stdout
    stderr := jsonText data.stderr }

/-- Second component of what `ExecCommand` returns (an `interface{}`): a
string, or the JSON encoding of the result map. -/
inductive Body where
  | text (s : String)
  | json (data : ExecutionResult)
  deriving DecidableEq

/-- How a call of `ExecCommand` ends: it returns a status and a body, or it
panics. -/
inductive Outcome where
  | ret (status : Nat) (body : Body)
  | panic (msg : String)
  deriving DecidableEq

/-- Result of a handler: what it answers, the storage it leaves, the effects
it had. -/
structure Result (α : Type) where
  out : α
  files : Files
  trace : List Event

/-- A handler that returns at once, without any effect. -/
def Result.pure {α : Type} (out : α) (fs : Files) : Result α :=
  { out := out, files := fs, trace := [] }

/-! ## Parsing the body -/

/-- Storage after each of the files `spilled` has been written. -/
def writeAll (spilled : List Spilled) (fs : Files) : Files :=
  spilled.foldl (fun acc sp => writeFile sp.name sp.data acc) fs

/-- Storage after each of the files `spilled` has been removed. -/
def removeAll (spilled : List Spilled) (fs : Files) : Files :=
  spilled.foldl (fun acc sp => removeFile sp.name acc) fs

/-- The effect of `req.ParseMultipartForm(defaultMaxMemory)`, which the first
`req.FormValue` of a handler runs and whose error it drops: the library writes
its temporary files; when reading the form fails it removes them again before
it returns. -/
def ParseMultipartForm (env : Env) (req : Request) (fs : Files) : Result Unit :=
  match req.MultipartErr with
  | none =>
    { out := ()
      files := writeAll (env.Spill req) fs
      trace := (env.Spill req).map (fun sp => Event.spill sp.name sp.data) }
  | some _ =>
    { out := ()
      files := removeAll (env.Spill req) (writeAll (env.Spill req) fs)
      trace := (env.Spill req).map (fun sp => Event.spill sp.name sp.data) ++
        (env.Spill req).map (fun sp => Event.remove sp.name) }

/-- The effect of a call of `req.FormFile(key)` that returns a file: when the
part was written to one of the library's temporary files, that file is opened
for reading; a part kept in memory needs no file. -/
def openedPart (env : Env) (req : Request) (key : String) : List Event :=
  match req.FormFile key with
  | .file _ =>
    match (env.Spill req).find? (fun sp => sp.fields.contains key) with
    | some sp => [Event.openPart sp.name]
    | none => []
  | _ => []

/-! ## Configuration (`conf/config.go`, `main.go`) -/

/-- The `[http]` section of the configuration. -/
structure HttpAuth where
  Enabled : Bool
  Token : String

/-- Value of the package variable `AuthToken` once `realMain` has run: its
zero value, overwritten by the configured token when `HttpAuth.Enabled`. -/
def configuredAuthToken (cfg : HttpAuth) : String :=
  if cfg.Enabled then cfg.Token else ""

/-! ## `Server.ValidateHeader` -/

/-- The method `Server.ValidateHeader`; `none` is the nil error.  `AuthToken`
is the package variable. -/
def ValidateHeader (AuthToken : String) (req : Request) : Option String :=
  let auth := req.HeaderGet "Authorization"
  let al := (Split auth.data).map String.mk
  let AccessToken := if al.length > 1 then al.getD 1 "" else auth
  if AccessToken != AuthToken then some "认证失败，token不合法" else none

/-! ## `Server.ExecCommand` -/

/-- Lines 91-101: the flag `become`, or the response body for a value that
`strconv.Atoi` rejects. -/
def decodeBecome (env : Env) (arg : String) : Except String Bool :=
  if arg != "" then
    match Atoi arg with
    | none => .error ("error decoding 'become' value: " ++ env.AtoiError arg)
    | some value => .ok (value != 0)
  else .ok false

/-- Lines 142-152: the argument vector `cmdArgs`, or the response body for an
unsupported method. -/
def cmdArgs (become : Bool) (becomeMethod executable command : String) :
    Except String (List String) :=
  let start : Except String (List String) :=
    if become then
      if becomeMethod = "sudo" then .ok ([] ++ ["sudo", "-n"])
      else .error ("unsupported become method '" ++ becomeMethod ++ "'")
    else .ok []
  match start with
  | .error msg => .error msg
  | .ok args => .ok (args ++ [executable, "-c", command])

/-- Lines 139-174: build the argument vector, run the child with `stdin`
attached, fill the map `data` and marshal it.  `json.Marshal` cannot fail on a
map of one integer and three strings, so its error branch is not reachable. -/
def runCommand (env : Env) (become : Bool) (becomeMethod executable command : String)
    (stdin : Option String) (fs : Files) : Result Outcome :=
  match cmdArgs become becomeMethod executable command with
  | .error msg => Result.pure (.ret StatusInternalServerError (.text msg)) fs
  | .ok args =>
    let r := env.Run args stdin fs
    let data : ResultMap :=
      { status := if r.1.failed then 1 else 0
        stdin := []
        stdout := r.1.stdout
        stderr := r.1.stderr }
    { out := .ret StatusOK (.json (Marshal data))
      files := r.2
      trace := [Event.spawn args stdin r.1] }

/-- Lines 126-174, the part of `ExecCommand` that runs under the deferred
`os.Remove`: copy the input into the temporary file `name`, reopen it, run the
command.  `input` is the file returned by `FormFile`; it is `none` (a nil
interface) when `FormFile` reported `ErrMissingFile`, and `io.Copy` then calls
`Read` on a nil interface, which panics. -/
def stageAndRun (env : Env) (become : Bool) (becomeMethod executable command : String)
    (input : Option String) (name : String) (fs : Files) : Result Outcome :=
  match input with
  | none =>
    Result.pure (.panic "runtime error: invalid memory address or nil pointer dereference") fs
  | some data =>
    let copied := env.Copy name data
    let fs1 := writeFile name copied.1 fs
    match copied.2 with
    | some err =>
      { out := .ret StatusInternalServerError (.text (err ++ "\n"))
        files := fs1
        trace := [Event.write name copied.1] }
    | none =>
      match env.openFail name with
      | some err =>
        { out := .ret StatusInternalServerError (.text (err ++ "\n"))
          files := fs1
          trace := [Event.write name copied.1] }
      | none =>
        let r := runCommand env become becomeMethod executable command
          (some (readFile name fs1)) fs1
        { r with trace := [Event.write name copied.1, Event.reopen name] ++ r.trace }

/-- Lines 86-89: the interpreter, `/bin/sh` unless the request names one. -/
def executableOf (req : Request) : String :=
  if req.FormValue "executable" = "" then "/bin/sh" else req.FormValue "executable"

/-- Lines 103-106: the escalation method, `sudo` unless the request names one. -/
def becomeMethodOf (req : Request) : String :=
  if req.FormValue "becomeMethod" = "" then "sudo" else req.FormValue "becomeMethod"

/-- The variable `input` of line 115 as `io.Copy` receives it: the content of
the opened file part, or `none` for the nil file that comes with an error. -/
def inputOf : FormFileResult → Option String
  | .file data => some data
  | _ => none

/-- Lines 81-174, the part of `ExecCommand` that follows the parsing of the
body: the parameter checks, the staging of the input and the run. -/
def execParsed (env : Env) (req : Request) (fs : Files) : Result Outcome :=
  let command := req.FormValue "command"
  if command = "" then
    Result.pure (.ret StatusInternalServerError (.text "command is a required parameter\n")) fs
  else
    let executable := executableOf req
    match decodeBecome env (req.FormValue "become") with
    | .error msg => Result.pure (.ret StatusInternalServerError (.text msg)) fs
    | .ok become =>
      let becomeMethod := becomeMethodOf req
      if HasPrefix (req.HeaderGet "Content-Type") "multipart/form-data" then
        match req.FormFile "stdin" with
        | .failed err =>
          Result.pure (.ret StatusInternalServerError (.text (err ++ "\n"))) fs
        | found =>
          match env.TempFile fs with
          | .error err =>
            { out := .ret StatusInternalServerError (.text (err ++ "\n"))
              files := fs
              trace := openedPart env req "stdin" }
          | .ok name =>
            let r := stageAndRun env become becomeMethod executable command
              (inputOf found) name (writeFile name "" fs)
            { out := r.out
              files := removeFile name r.files
              trace := openedPart env req "stdin" ++ [Event.tempFile name] ++ r.trace ++
                [Event.remove name] }
      else
        runCommand env become becomeMethod executable command none fs

/-- The method `Server.ExecCommand`: the token is checked first; the call of
`req.FormValue` on line 81 then parses the body, and the rest of the handler
works on the parsed request. -/
def ExecCommand (env : Env) (AuthToken : String) (req : Request) (fs : Files) :
    Result Outcome :=
  match ValidateHeader AuthToken req with
  | some _ => Result.pure (.ret StatusUnauthorized (.text "认证失败，token不合法\n")) fs
  | none =>
    let parsed := ParseMultipartForm env req fs
    let r := execParsed env req parsed.files
    { out := r.out
      files := r.files
      trace := parsed.trace ++ r.trace }

/-! ## `Server.PutFile` -/

/-- Lines 182-194, the part of `PutFile` that follows the parsing of the
body.  The result of `io.Copy` is discarded. -/
def putParsed (env : Env) (req : Request) (fs : Files) : Result (Nat × String) :=
  let dest := req.FormValue "dest"
  match req.FormFile "src" with
  | .failed err => Result.pure (StatusInternalServerError, err) fs
  | .ErrMissingFile => Result.pure (StatusInternalServerError, "http: no such file") fs
  | .file src =>
    match env.createFail dest with
    | some err =>
      { out := (StatusInternalServerError, err)
        files := fs
        trace := openedPart env req "src" }
    | none =>
      let copied := env.Copy dest src
      { out := (StatusOK, "")
        files := writeFile dest copied.1 (writeFile dest "" fs)
        trace := openedPart env req "src" ++ [Event.create dest, Event.write dest copied.1] }

/-- The method `Server.PutFile`: the token is checked first; the call of
`req.FormValue` on line 181 then parses the body, and the rest of the handler
works on the parsed request. -/
def PutFile (env : Env) (AuthToken : String) (req : Request) (fs : Files) :
    Result (Nat × String) :=
  match ValidateHeader AuthToken req with
  | some _ => Result.pure (StatusUnauthorized, "认证失败，token不合法\n") fs
  | none =>
    let parsed := ParseMultipartForm env req fs
    let r := putParsed env req parsed.files
    { out := r.out
      files := r.files
      trace := parsed.trace ++ r.trace }

/-! ## Concrete environments and requests -/

/-- An environment in which every operation succeeds, nothing is spilled and
the child prints `ok` and exits with code 0. -/
def quietEnv : Env :=
  { Spill := fun _ => []
    AtoiError := fun arg => "strconv.Atoi: parsing " ++ arg ++ ": invalid syntax"
    TempFile := fun _ => .ok "/tmp/ansible-stdin042"
    copyFail := fun _ _ => none
    openFail := fun _ => none
    createFail := fun _ => none
    Run := fun _ _ fs => ({ outcome := .exited 0, stdout := utf8 "ok".data, stderr := [] }, fs) }

/-- An environment whose child prints the single byte `0xFF` (as `printf` with
the octal escape 377 does) and exits with code 0. -/
def binaryEnv : Env :=
  { quietEnv with
    Run := fun _ _ fs => ({ outcome := .exited 0, stdout := [0xFF], stderr := [] }, fs) }

/-- An environment in which the HTTP library finds the `stdin` part of a
multipart body too large to keep in memory and writes it to a temporary file
of its own, as it does for a part of 34 MiB. -/
def spillEnv : Env :=
  { quietEnv with
    Spill := fun req =>
      if req.MultipartErr = none then
        [{ name := "/tmp/multipart-118", data := firstValue "stdin" req.File,
           fields := ["stdin"] }]
      else [] }

/-- An environment whose storage is full: files can be created, but a copy
stops after two characters. -/
def fullDiskEnv : Env :=
  { quietEnv with copyFail := fun _ _ => some (2, "no space left on device") }

/-- Static-token authentication switched on with an empty token. -/
def emptyTokenConfig : HttpAuth :=
  { Enabled := true, Token := "" }

/-- Static-token authentication switched off (a token left in the file is then
not used). -/
def disabledConfig : HttpAuth :=
  { Enabled := false, Token := "s3cret" }

/-- A form-encoded execute request that presents the token `wrong`. -/
def wrongTokenRequest : Request :=
  { Header := [("Authorization", "Bearer wrong")]
    Form := [("command", "id"), ("dest", "/etc/motd")]
    MultipartErr := none
    File := [("src", "hello")] }

/-- A form-encoded execute request without an `Authorization` header. -/
def bareRequest : Request :=
  { Header := [("Content-Type", "application/x-www-form-urlencoded")]
    Form := [("command", "id")]
    MultipartErr := some "request Content-Type isn't multipart/form-data"
    File := [] }

/-- An upload without an `Authorization` header. -/
def bareUpload : Request :=
  { Header := [("Content-Type", "multipart/form-data; boundary=x")]
    Form := [("dest", "/etc/motd")]
    MultipartErr := none
    File := [("src", "hello")] }

/-- A form-encoded execute request carrying credentials for the
directory-service authenticator. -/
def basicAuthRequest : Request :=
  { Header := [("Authorization", "Basic YWxpY2U6c2VjcmV0")]
    Form := [("command", "id"), ("dest", "/etc/motd")]
    MultipartErr := none
    File := [("src", "hello")] }

/-- A form-encoded execute request with the right token. -/
def plainExec : Request :=
  { Header := [("Authorization", "Bearer s3cret"),
      ("Content-Type", "application/x-www-form-urlencoded")]
    Form := [("command", "id")]
    MultipartErr := some "request Content-Type isn't multipart/form-data"
    File := [] }

/-- A form-encoded execute request with the right token whose command prints
the single byte `0xFF`. -/
def printfExec : Request :=
  { Header := [("Authorization", "Bearer s3cret"),
      ("Content-Type", "application/x-www-form-urlencoded")]
    Form := [("command", "printf '\\377'")]
    MultipartErr := some "request Content-Type isn't multipart/form-data"
    File := [] }

/-- A multipart execute request with the right token that streams a script on
the `stdin` field. -/
def pipelinedExec : Request :=
  { Header := [("Authorization", "Bearer s3cret"),
      ("Content-Type", "multipart/form-data; boundary=x")]
    Form := [("command", "python")]
    MultipartErr := none
    File := [("stdin", "print(1)")] }

/-- A multipart execute request with the right token and no `stdin` field. -/
def pipelinedNoStdin : Request :=
  { Header := [("Authorization", "Bearer s3cret"),
      ("Content-Type", "multipart/form-data; boundary=x")]
    Form := [("command", "id")]
    MultipartErr := none
    File := [] }

/-- A multipart execute request with the right token that streams a script and
asks for escalation through `su`. -/
def pipelinedSu : Request :=
  { Header := [("Authorization", "Bearer s3cret"),
      ("Content-Type", "multipart/form-data; boundary=x")]
    Form := [("command", "python"), ("become", "1"), ("becomeMethod", "su")]
    MultipartErr := none
    File := [("stdin", "print(1)")] }

/-- A multipart execute request with the right token and no command. -/
def pipelinedNoCommand : Request :=
  { Header := [("Authorization", "Bearer s3cret"),
      ("Content-Type", "multipart/form-data; boundary=x")]
    Form := [("executable", "/bin/bash")]
    MultipartErr := none
    File := [("stdin", "print(1)")] }

/-- A multipart execute request with the right token whose `become` value is
not an integer. -/
def pipelinedBadBecome : Request :=
  { Header := [("Authorization", "Bearer s3cret"),
      ("Content-Type", "multipart/form-data; boundary=x")]
    Form := [("command", "python"), ("become", "yes")]
    MultipartErr := none
    File := [("stdin", "print(1)")] }

/-- An upload with the right token. -/
def tokenUpload : Request :=
  { Header := [("Authorization", "Bearer s3cret"),
      ("Content-Type", "multipart/form-data; boundary=x")]
    Form := [("dest", "/etc/motd")]
    MultipartErr := none
    File := [("src", "hello")] }

/-! ## The specification's own wording, for comparison with the code -/

/-- The presented credential in the words of the specification: the second
element of the header value split on the space character when that split has
two or more elements, the whole header value otherwise. -/
def presented (h : String) : String :=
  match h.data.splitOn ' ' with
  | _ :: second :: _ => String.mk second
  | _ => h

/-- The argument vector in the words of the specification, for a command `c`,
an executable `e`, a flag `b` and a method `m`, the last two as sent (empty
when not sent); `none` when no vector is built. -/
def referenceArgv (c e : String) (b : Bool) (m : String) : Option (List String) :=
  let e := if e = "" then "/bin/sh" else e
  let m := if m = "" then "sudo" else m
  if b = false then some [e, "-c", c]
  else if m = "sudo" then some ["sudo", "-n", e, "-c", c]
  else none

/-- The response of `ExecCommand` after a child that ended with `r`: status
200 and the marshalled result map. -/
def resultOf (r : RunResult) : Outcome :=
  .ret StatusOK (.json
    { status := if r.outcome = RunOutcome.exited 0 then 0 else 1
      stdin := ""
      stdout := jsonText r.stdout
      stderr := jsonText r.stderr })


/-! ## Auxiliary facts -/

theorem Split_ne_nil (cs : List Char) : Split cs ≠ [] := by
  induction cs with
  | nil => simp [Split]
  | cons c cs ih =>
    unfold Split
    split
    · simp
    · split <;> simp

/-- The model of `strings.Split` agrees with the library's `List.splitOn`. -/
theorem Split_eq_splitOn (cs : List Char) : Split cs = cs.splitOn ' ' := by
  induction cs with
  | nil => simp [Split, List.splitOn, List.splitOnP_nil]
  | cons c cs ih =>
    have hcons : (c :: cs).splitOn ' ' =
        if (c == ' ') = true then [] :: cs.splitOn ' '
        else (cs.splitOn ' ').modifyHead (List.cons c) := by
      simp only [List.splitOn]
      exact List.splitOnP_cons _ c cs
    rw [hcons, ← ih, Split]
    by_cases hc : c = ' '
    · simp [hc]
    · simp only [hc, if_false, beq_iff_eq]
      cases hs : Split cs with
      | nil => exact absurd hs (Split_ne_nil cs)
      | cons piece rest => simp

/-- The pieces of a split, joined by spaces, give the string back. -/
theorem intercalate_Split (cs : List Char) : [' '].intercalate (Split cs) = cs := by
  rw [Split_eq_splitOn]
  exact List.intercalate_splitOn cs ' '

theorem fileExists_removeFile (path : String) (fs : Files) :
    fileExists path (removeFile path fs) = false := by
  simp [fileExists, removeFile]

theorem ValidateHeader_eq_none_iff (AuthToken : String) (req : Request) :
    ValidateHeader AuthToken req = none ↔
      presented (req.HeaderGet "Authorization") = AuthToken := by
  unfold ValidateHeader presented
  simp only [Split_eq_splitOn]
  rcases hs : (req.HeaderGet "Authorization").data.splitOn ' ' with _ | ⟨a, _ | ⟨b, l⟩⟩ <;>
    simp

/-! ### Marshalling gives valid UTF-8 back unchanged -/

theorem byte_val (n : Nat) (h : n < 256) : (byte n).val = n := by
  simp [byte, Nat.mod_eq_of_lt h]

theorem Char_toNat_range (c : Char) :
    c.toNat < 0xD800 ∨ (0xDFFF < c.toNat ∧ c.toNat < 0x110000) :=
  c.valid

/-- Decoding the encoding of a character gives the character and the length
of its encoding, whatever follows. -/
theorem DecodeRune_encodeRune (c : Char) (rest : List Byte) :
    DecodeRune (encodeRune c ++ rest) = (c, (encodeRune c).length) := by
  have hv := Char_toNat_range c
  have hc : Char.ofNat c.toNat = c := Char.ofNat_toNat c
  unfold encodeRune
  generalize c.toNat = n at hv hc
  by_cases h1 : n < 0x80
  · simp [h1, DecodeRune, byte_val n (by omega), hc]
  · by_cases h2 : n < 0x800
    · have e0 := byte_val (0xC0 + n / 64) (by omega)
      have e1 := byte_val (0x80 + n % 64) (by omega)
      have hn : (0xC0 + n / 64 - 0xC0) * 64 + (0x80 + n % 64 - 0x80) = n := by omega
      have r0 : ¬ (0xC0 + n / 64 < 0x80) := by omega
      have r1 : 0xC2 ≤ 0xC0 + n / 64 ∧ 0xC0 + n / 64 ≤ 0xDF := by omega
      have r2 : 0x80 ≤ 0x80 + n % 64 ∧ 0x80 + n % 64 ≤ 0xBF := by omega
      simp only [h1, h2, if_false, if_true, List.cons_append, List.nil_append, DecodeRune,
        isCont, e0, e1, r0, r1, r2, hn, hc, decide_True, and_self, List.length_cons,
        List.length_nil]
    · by_cases h3 : n < 0x10000
      · have e0 := byte_val (0xE0 + n / 4096) (by omega)
        have e1 := byte_val (0x80 + n / 64 % 64) (by omega)
        have e2 := byte_val (0x80 + n % 64) (by omega)
        have hn : (0xE0 + n / 4096 - 0xE0) * 4096 + (0x80 + n / 64 % 64 - 0x80) * 64 +
            (0x80 + n % 64 - 0x80) = n := by omega
        have r0 : ¬ (0xE0 + n / 4096 < 0x80) := by omega
        have r1 : ¬ (0xC2 ≤ 0xE0 + n / 4096 ∧ 0xE0 + n / 4096 ≤ 0xDF) := by omega
        have r2 : 0xE0 ≤ 0xE0 + n / 4096 ∧ 0xE0 + n / 4096 ≤ 0xEF := by omega
        have r3 : 0x80 ≤ 0x80 + n % 64 ∧ 0x80 + n % 64 ≤ 0xBF := by omega
        have ha : accept (byte (0xE0 + n / 4096)) (byte (0x80 + n / 64 % 64)) = true := by
          simp only [accept, isCont, e0, e1]
          split
          · simp; omega
          · split
            · simp; omega
            · split
              · omega
              · split
                · omega
                · simp; omega
        simp only [h1, h2, h3, if_false, if_true, List.cons_append, List.nil_append, DecodeRune,
          isCont, e0, e1, e2, r0, r1, r2, r3, ha, hn, hc, decide_True, and_self,
          List.length_cons, List.length_nil]
      · have e0 := byte_val (0xF0 + n / 262144) (by omega)
        have e1 := byte_val (0x80 + n / 4096 % 64) (by omega)
        have e2 := byte_val (0x80 + n / 64 % 64) (by omega)
        have e3 := byte_val (0x80 + n % 64) (by omega)
        have hn : (0xF0 + n / 262144 - 0xF0) * 262144 + (0x80 + n / 4096 % 64 - 0x80) * 4096 +
            (0x80 + n / 64 % 64 - 0x80) * 64 + (0x80 + n % 64 - 0x80) = n := by omega
        have r0 : ¬ (0xF0 + n / 262144 < 0x80) := by omega
        have r1 : ¬ (0xC2 ≤ 0xF0 + n / 262144 ∧ 0xF0 + n / 262144 ≤ 0xDF) := by omega
        have r2 : ¬ (0xE0 ≤ 0xF0 + n / 262144 ∧ 0xF0 + n / 262144 ≤ 0xEF) := by omega
        have r3 : 0xF0 ≤ 0xF0 + n / 262144 ∧ 0xF0 + n / 262144 ≤ 0xF4 := by omega
        have r4 : 0x80 ≤ 0x80 + n / 64 % 64 ∧ 0x80 + n / 64 % 64 ≤ 0xBF := by omega
        have r5 : 0x80 ≤ 0x80 + n % 64 ∧ 0x80 + n % 64 ≤ 0xBF := by omega
        have ha : accept (byte (0xF0 + n / 262144)) (byte (0x80 + n / 4096 % 64)) = true := by
          simp only [accept, isCont, e0, e1]
          split
          · omega
          · split
            · omega
            · split
              · simp; omega
              · split
                · simp; omega
                · simp; omega
        simp only [h1, h2, h3, if_false, if_true, List.cons_append, List.nil_append, DecodeRune,
          isCont, e0, e1, e2, e3, r0, r1, r2, r3, r4, r5, ha, hn, hc, decide_True, and_self,
          List.length_cons, List.length_nil]

theorem encodeRune_length_pos (c : Char) : 0 < (encodeRune c).length := by
  unfold encodeRune
  split
  · simp
  · split
    · simp
    · split <;> simp

theorem decodeFrom_skip (l rest : List Byte) :
    decodeFrom l.length (l ++ rest) = decodeFrom 0 rest := by
  induction l with
  | nil => simp
  | cons b l ih => simpa [decodeFrom] using ih

theorem decodeFrom_utf8 (cs : List Char) : decodeFrom 0 (utf8 cs) = cs := by
  induction cs with
  | nil => simp [utf8, decodeFrom]
  | cons c cs ih =>
    have hd := DecodeRune_encodeRune c (utf8 cs)
    have hpos := encodeRune_length_pos c
    cases he : encodeRune c with
    | nil => rw [he] at hpos; simp at hpos
    | cons b l =>
      rw [he] at hd
      simp only [utf8, he, List.cons_append] at hd ⊢
      rw [decodeFrom, hd]
      simp only [List.length_cons, Nat.add_sub_cancel]
      rw [decodeFrom_skip, ih]

/-- A Go string that is the UTF-8 encoding of a text is marshalled to that
text. -/
theorem jsonText_utf8 (s : String) : jsonText (utf8 s.data) = s := by
  simp [jsonText, decodeFrom_utf8]

theorem jsonText_nil : jsonText [] = "" := by
  decide

/-! ### What parsing the body does -/

theorem ParseMultipartForm_of_no_spill (env : Env) (req : Request) (fs : Files)
    (h : env.Spill req = []) :
    (ParseMultipartForm env req fs).trace = [] ∧ (ParseMultipartForm env req fs).files = fs := by
  unfold ParseMultipartForm
  split <;> simp [h, writeAll, removeAll]

/-- Parsing the body only writes the library's own temporary files, and may
remove them again. -/
theorem ParseMultipartForm_trace (env : Env) (req : Request) (fs : Files) (ev : Event)
    (h : ev ∈ (ParseMultipartForm env req fs).trace) :
    (∃ sp ∈ env.Spill req, ev = Event.spill sp.name sp.data) ∨
    (∃ sp ∈ env.Spill req, ev = Event.remove sp.name) := by
  unfold ParseMultipartForm at h
  split at h
  · simp only [List.mem_map] at h
    obtain ⟨sp, hp, rfl⟩ := h
    exact Or.inl ⟨sp, hp, rfl⟩
  · simp only [List.mem_append, List.mem_map] at h
    rcases h with ⟨sp, hp, rfl⟩ | ⟨sp, hp, rfl⟩
    · exact Or.inl ⟨sp, hp, rfl⟩
    · exact Or.inr ⟨sp, hp, rfl⟩

/-- A call of `req.FormFile` opens at most one file, one that the library
wrote while parsing. -/
theorem openedPart_cases (env : Env) (req : Request) (key : String) :
    openedPart env req key = [] ∨
    ∃ sp ∈ env.Spill req, openedPart env req key = [Event.openPart sp.name] := by
  unfold openedPart
  split
  · split
    · rename_i sp hfind
      exact Or.inr ⟨sp, List.mem_of_find?_eq_some hfind, rfl⟩
    · exact Or.inl rfl
  · exact Or.inl rfl

theorem openedPart_of_no_spill (env : Env) (req : Request) (key : String)
    (h : env.Spill req = []) : openedPart env req key = [] := by
  rcases openedPart_cases env req key with h1 | ⟨sp, hsp, _⟩
  · exact h1
  · rw [h] at hsp
    cases hsp

theorem openedPart_no_spawn (env : Env) (req : Request) (key : String)
    (argv : List String) (sin : Option String) (r : RunResult) :
    Event.spawn argv sin r ∉ openedPart env req key := by
  rcases openedPart_cases env req key with h | ⟨sp, _, h⟩ <;> simp [h]

theorem openedPart_no_tempFile (env : Env) (req : Request) (key : String) (name : String) :
    Event.tempFile name ∉ openedPart env req key := by
  rcases openedPart_cases env req key with h | ⟨sp, _, h⟩ <;> simp [h]

theorem ParseMultipartForm_no_spawn (env : Env) (req : Request) (fs : Files)
    (argv : List String) (sin : Option String) (r : RunResult) :
    Event.spawn argv sin r ∉ (ParseMultipartForm env req fs).trace := by
  intro h
  rcases ParseMultipartForm_trace env req fs _ h with ⟨_, _, h⟩ | ⟨_, _, h⟩ <;> cases h

theorem ParseMultipartForm_no_tempFile (env : Env) (req : Request) (fs : Files)
    (name : String) :
    Event.tempFile name ∉ (ParseMultipartForm env req fs).trace := by
  intro h
  rcases ParseMultipartForm_trace env req fs _ h with ⟨_, _, h⟩ | ⟨_, _, h⟩ <;> cases h

theorem ExecCommand_of_valid (env : Env) (AuthToken : String) (req : Request) (fs : Files)
    (hv : ValidateHeader AuthToken req = none) :
    (ExecCommand env AuthToken req fs).out =
      (execParsed env req (ParseMultipartForm env req fs).files).out ∧
    (ExecCommand env AuthToken req fs).files =
      (execParsed env req (ParseMultipartForm env req fs).files).files ∧
    (ExecCommand env AuthToken req fs).trace =
      (ParseMultipartForm env req fs).trace ++
        (execParsed env req (ParseMultipartForm env req fs).files).trace := by
  simp [ExecCommand, hv]

theorem PutFile_of_valid (env : Env) (AuthToken : String) (req : Request) (fs : Files)
    (hv : ValidateHeader AuthToken req = none) :
    (PutFile env AuthToken req fs).out =
      (putParsed env req (ParseMultipartForm env req fs).files).out ∧
    (PutFile env AuthToken req fs).files =
      (putParsed env req (ParseMultipartForm env req fs).files).files ∧
    (PutFile env AuthToken req fs).trace =
      (ParseMultipartForm env req fs).trace ++
        (putParsed env req (ParseMultipartForm env req fs).files).trace := by
  simp [PutFile, hv]

/-! ### Where the effects of `ExecCommand` come from -/

theorem runCommand_of_error (env : Env) (b : Bool) (m e c msg : String) (stdin : Option String)
    (fs : Files) (h : cmdArgs b m e c = .error msg) :
    (runCommand env b m e c stdin fs).out = .ret StatusInternalServerError (.text msg) ∧
    (runCommand env b m e c stdin fs).trace = [] ∧
    (runCommand env b m e c stdin fs).files = fs := by
  simp [runCommand, h, Result.pure]

theorem runCommand_of_ok (env : Env) (b : Bool) (m e c : String) (args : List String)
    (stdin : Option String) (fs : Files) (h : cmdArgs b m e c = .ok args) :
    (runCommand env b m e c stdin fs).out = resultOf (env.Run args stdin fs).1 ∧
    (runCommand env b m e c stdin fs).trace = [Event.spawn args stdin (env.Run args stdin fs).1] ∧
    (runCommand env b m e c stdin fs).files = (env.Run args stdin fs).2 := by
  simp only [runCommand, h, resultOf, RunResult.failed, Marshal, jsonText_nil, and_true,
    true_and]
  by_cases ho : (env.Run args stdin fs).1.outcome = RunOutcome.exited 0 <;> simp [ho]

theorem runCommand_spawn (env : Env) (b : Bool) (m e c : String) (stdin : Option String)
    (fs : Files) (argv : List String) (sin : Option String) (r : RunResult)
    (h : Event.spawn argv sin r ∈ (runCommand env b m e c stdin fs).trace) :
    cmdArgs b m e c = .ok argv ∧ (runCommand env b m e c stdin fs).out = resultOf r ∧
      ∃ fs1, r = (env.Run argv sin fs1).1 := by
  cases hc : cmdArgs b m e c with
  | error msg =>
    rw [(runCommand_of_error env b m e c msg stdin fs hc).2.1] at h
    simp at h
  | ok args =>
    obtain ⟨ho, ht, _⟩ := runCommand_of_ok env b m e c args stdin fs hc
    rw [ht] at h
    simp only [List.mem_singleton, Event.spawn.injEq] at h
    obtain ⟨ha, hs, hr⟩ := h
    rw [ho, ha, hr, hs]
    exact ⟨rfl, rfl, fs, rfl⟩

theorem runCommand_no_tempFile (env : Env) (b : Bool) (m e c : String) (stdin : Option String)
    (fs : Files) (name : String) :
    Event.tempFile name ∉ (runCommand env b m e c stdin fs).trace := by
  unfold runCommand
  split <;> simp [Result.pure]

theorem runCommand_out (env : Env) (b : Bool) (m e c : String) (stdin : Option String)
    (fs : Files) :
    (∃ body, (runCommand env b m e c stdin fs).out = .ret StatusInternalServerError body) ∨
    (∃ body, (runCommand env b m e c stdin fs).out = .ret StatusOK body) := by
  cases hc : cmdArgs b m e c with
  | error msg => exact Or.inl ⟨_, (runCommand_of_error env b m e c msg stdin fs hc).1⟩
  | ok args => exact Or.inr ⟨_, (runCommand_of_ok env b m e c args stdin fs hc).1⟩

theorem stageAndRun_spawn (env : Env) (b : Bool) (m e c : String) (input : Option String)
    (name : String) (fs : Files) (argv : List String) (sin : Option String) (r : RunResult)
    (h : Event.spawn argv sin r ∈ (stageAndRun env b m e c input name fs).trace) :
    cmdArgs b m e c = .ok argv ∧ (stageAndRun env b m e c input name fs).out = resultOf r ∧
      ∃ fs1, r = (env.Run argv sin fs1).1 := by
  cases input with
  | none => simp [stageAndRun, Result.pure] at h
  | some data =>
    cases hcopy : (env.Copy name data).2 with
    | some err => simp [stageAndRun, hcopy] at h
    | none =>
      cases hopen : env.openFail name with
      | some err => simp [stageAndRun, hcopy, hopen] at h
      | none =>
        simp only [stageAndRun, hcopy, hopen, List.cons_append, List.nil_append, List.mem_cons,
          reduceCtorEq, false_or] at h ⊢
        exact runCommand_spawn env b m e c _ _ argv sin r h

theorem stageAndRun_no_tempFile (env : Env) (b : Bool) (m e c : String) (input : Option String)
    (name : String) (fs : Files) (n : String) :
    Event.tempFile n ∉ (stageAndRun env b m e c input name fs).trace := by
  cases input with
  | none => simp [stageAndRun, Result.pure]
  | some data =>
    cases hcopy : (env.Copy name data).2 with
    | some err => simp [stageAndRun, hcopy]
    | none =>
      cases hopen : env.openFail name with
      | some err => simp [stageAndRun, hcopy, hopen]
      | none =>
        simp only [stageAndRun, hcopy, hopen, List.cons_append, List.nil_append, List.mem_cons,
          reduceCtorEq, false_or]
        exact runCommand_no_tempFile env b m e c _ _ n

theorem stageAndRun_out (env : Env) (b : Bool) (m e c : String) (input : Option String)
    (name : String) (fs : Files) :
    (∃ msg, (stageAndRun env b m e c input name fs).out = .panic msg) ∨
    (∃ body, (stageAndRun env b m e c input name fs).out =
      .ret StatusInternalServerError body) ∨
    (∃ body, (stageAndRun env b m e c input name fs).out = .ret StatusOK body) := by
  cases input with
  | none => simp [stageAndRun, Result.pure]
  | some data =>
    cases hcopy : (env.Copy name data).2 with
    | some err => simp [stageAndRun, hcopy]
    | none =>
      cases hopen : env.openFail name with
      | some err => simp [stageAndRun, hcopy, hopen]
      | none =>
        simp only [stageAndRun, hcopy, hopen]
        exact Or.inr (runCommand_out env b m e c _ _)

theorem execParsed_of_empty_command (env : Env) (req : Request) (fs : Files)
    (hc : req.FormValue "command" = "") :
    execParsed env req fs =
      Result.pure (.ret StatusInternalServerError
        (.text "command is a required parameter\n")) fs := by
  simp [execParsed, hc]

theorem execParsed_of_bad_become (env : Env) (req : Request) (fs : Files) (msg : String)
    (hc : req.FormValue "command" ≠ "")
    (hb : decodeBecome env (req.FormValue "become") = .error msg) :
    execParsed env req fs =
      Result.pure (.ret StatusInternalServerError (.text msg)) fs := by
  simp [execParsed, hc, hb]

theorem execParsed_of_form (env : Env) (req : Request) (fs : Files) (b : Bool)
    (hc : req.FormValue "command" ≠ "")
    (hb : decodeBecome env (req.FormValue "become") = .ok b)
    (hm : HasPrefix (req.HeaderGet "Content-Type") "multipart/form-data" = false) :
    execParsed env req fs =
      runCommand env b (becomeMethodOf req) (executableOf req) (req.FormValue "command")
        none fs := by
  simp [execParsed, hc, hb, hm]

theorem execParsed_of_unreadable (env : Env) (req : Request) (fs : Files) (b : Bool)
    (err : String) (hc : req.FormValue "command" ≠ "")
    (hb : decodeBecome env (req.FormValue "become") = .ok b)
    (hm : HasPrefix (req.HeaderGet "Content-Type") "multipart/form-data" = true)
    (hf : req.FormFile "stdin" = .failed err) :
    execParsed env req fs =
      Result.pure (.ret StatusInternalServerError (.text (err ++ "\n"))) fs := by
  simp [execParsed, hc, hb, hm, hf]

theorem execParsed_of_no_tempFile (env : Env) (req : Request) (fs : Files) (b : Bool)
    (err : String) (hc : req.FormValue "command" ≠ "")
    (hb : decodeBecome env (req.FormValue "become") = .ok b)
    (hm : HasPrefix (req.HeaderGet "Content-Type") "multipart/form-data" = true)
    (hf : ∀ e, req.FormFile "stdin" ≠ .failed e)
    (ht : env.TempFile fs = .error err) :
    (execParsed env req fs).out = .ret StatusInternalServerError (.text (err ++ "\n")) ∧
    (execParsed env req fs).files = fs ∧
    (execParsed env req fs).trace = openedPart env req "stdin" := by
  cases hff : req.FormFile "stdin" with
  | failed e => exact absurd hff (hf e)
  | file data => simp [execParsed, hc, hb, hm, hff, ht]
  | ErrMissingFile => simp [execParsed, hc, hb, hm, hff, ht]

theorem execParsed_of_staged (env : Env) (req : Request) (fs : Files) (b : Bool)
    (name : String) (hc : req.FormValue "command" ≠ "")
    (hb : decodeBecome env (req.FormValue "become") = .ok b)
    (hm : HasPrefix (req.HeaderGet "Content-Type") "multipart/form-data" = true)
    (hf : ∀ e, req.FormFile "stdin" ≠ .failed e)
    (ht : env.TempFile fs = .ok name) :
    (execParsed env req fs).out =
      (stageAndRun env b (becomeMethodOf req) (executableOf req) (req.FormValue "command")
        (inputOf (req.FormFile "stdin")) name (writeFile name "" fs)).out ∧
    (execParsed env req fs).files =
      removeFile name
        (stageAndRun env b (becomeMethodOf req) (executableOf req) (req.FormValue "command")
          (inputOf (req.FormFile "stdin")) name (writeFile name "" fs)).files ∧
    (execParsed env req fs).trace =
      openedPart env req "stdin" ++ Event.tempFile name ::
        ((stageAndRun env b (becomeMethodOf req) (executableOf req) (req.FormValue "command")
          (inputOf (req.FormFile "stdin")) name (writeFile name "" fs)).trace ++
          [Event.remove name]) := by
  cases hff : req.FormFile "stdin" with
  | failed e => exact absurd hff (hf e)
  | file data => simp [execParsed, hc, hb, hm, hff, ht]
  | ErrMissingFile => simp [execParsed, hc, hb, hm, hff, ht]

/-- Every way through the checks of `ExecCommand` that follow the token, by the
tests it makes in order. -/
theorem execParsed_cases (env : Env) (req : Request) (fs : Files) :
    (req.FormValue "command" = "") ∨
    (req.FormValue "command" ≠ "" ∧
      ∃ msg, decodeBecome env (req.FormValue "become") = .error msg) ∨
    (req.FormValue "command" ≠ "" ∧
      ∃ b, decodeBecome env (req.FormValue "become") = .ok b ∧
        (HasPrefix (req.HeaderGet "Content-Type") "multipart/form-data" = false ∨
         (HasPrefix (req.HeaderGet "Content-Type") "multipart/form-data" = true ∧
           ((∃ err, req.FormFile "stdin" = .failed err) ∨
            ((∀ e, req.FormFile "stdin" ≠ .failed e) ∧
              ((∃ err, env.TempFile fs = .error err) ∨
               (∃ name, env.TempFile fs = .ok name))))))) := by
  by_cases hc : req.FormValue "command" = ""
  · simp [hc]
  · cases hb : decodeBecome env (req.FormValue "become") with
    | error msg => simp [hc]
    | ok b =>
      cases hm : HasPrefix (req.HeaderGet "Content-Type") "multipart/form-data" with
      | false => simp [hc]
      | true =>
        cases hff : req.FormFile "stdin" with
        | failed e => simp [hc]
        | file data => cases ht : env.TempFile fs <;> simp [hc]
        | ErrMissingFile => cases ht : env.TempFile fs <;> simp [hc]

theorem execParsed_out (env : Env) (req : Request) (fs : Files) :
    (∃ msg, (execParsed env req fs).out = .panic msg) ∨
    (∃ body, (execParsed env req fs).out = .ret StatusInternalServerError body) ∨
    (∃ body, (execParsed env req fs).out = .ret StatusOK body) := by
  rcases execParsed_cases env req fs with
    hc | ⟨hc, msg, hb⟩ | ⟨hc, b, hb, hm | ⟨hm, ⟨err, hf⟩ | ⟨hf, ⟨err, ht⟩ | ⟨name, ht⟩⟩⟩⟩
  · simp [execParsed_of_empty_command env req fs hc, Result.pure]
  · simp [execParsed_of_bad_become env req fs msg hc hb, Result.pure]
  · rw [execParsed_of_form env req fs b hc hb hm]
    exact Or.inr (runCommand_out env b _ _ _ _ _)
  · simp [execParsed_of_unreadable env req fs b err hc hb hm hf, Result.pure]
  · simp [(execParsed_of_no_tempFile env req fs b err hc hb hm hf ht).1]
  · rw [(execParsed_of_staged env req fs b name hc hb hm hf ht).1]
    exact stageAndRun_out env b _ _ _ _ _ _

/-- With a valid token, `ExecCommand` never answers 401. -/
theorem ExecCommand_out_of_valid (env : Env) (AuthToken : String) (req : Request) (fs : Files)
    (h : ValidateHeader AuthToken req = none) :
    (∃ msg, (ExecCommand env AuthToken req fs).out = .panic msg) ∨
    (∃ body, (ExecCommand env AuthToken req fs).out = .ret StatusInternalServerError body) ∨
    (∃ body, (ExecCommand env AuthToken req fs).out = .ret StatusOK body) := by
  rw [(ExecCommand_of_valid env AuthToken req fs h).1]
  exact execParsed_out env req _

/-- With a valid token, `PutFile` never answers 401. -/
theorem PutFile_out_of_valid (env : Env) (AuthToken : String) (req : Request) (fs : Files)
    (h : ValidateHeader AuthToken req = none) :
    (PutFile env AuthToken req fs).out.1 = StatusInternalServerError ∨
    (PutFile env AuthToken req fs).out.1 = StatusOK := by
  rw [(PutFile_of_valid env AuthToken req fs h).1]
  cases hf : req.FormFile "src" with
  | failed e => simp [putParsed, hf, Result.pure]
  | ErrMissingFile => simp [putParsed, hf, Result.pure]
  | file src =>
    cases hcr : env.createFail (req.FormValue "dest") with
    | some err => simp [putParsed, hf, hcr]
    | none => simp [putParsed, hf, hcr]

theorem execParsed_spawn (env : Env) (req : Request) (fs : Files)
    (argv : List String) (sin : Option String) (r : RunResult)
    (h : Event.spawn argv sin r ∈ (execParsed env req fs).trace) :
    (∃ b, decodeBecome env (req.FormValue "become") = .ok b ∧
      cmdArgs b (becomeMethodOf req) (executableOf req) (req.FormValue "command") = .ok argv) ∧
    (execParsed env req fs).out = resultOf r ∧
    ∃ fs1, r = (env.Run argv sin fs1).1 := by
  rcases execParsed_cases env req fs with
    hc | ⟨hc, msg, hb⟩ | ⟨hc, b, hb, hm | ⟨hm, ⟨err, hf⟩ | ⟨hf, ⟨err, ht⟩ | ⟨name, ht⟩⟩⟩⟩
  · simp [execParsed_of_empty_command env req fs hc, Result.pure] at h
  · simp [execParsed_of_bad_become env req fs msg hc hb, Result.pure] at h
  · rw [execParsed_of_form env req fs b hc hb hm] at h ⊢
    exact ⟨⟨b, hb, (runCommand_spawn env b _ _ _ _ _ argv sin r h).1⟩,
      (runCommand_spawn env b _ _ _ _ _ argv sin r h).2⟩
  · simp [execParsed_of_unreadable env req fs b err hc hb hm hf, Result.pure] at h
  · rw [(execParsed_of_no_tempFile env req fs b err hc hb hm hf ht).2.2] at h
    exact absurd h (openedPart_no_spawn env req "stdin" argv sin r)
  · obtain ⟨ho, _, htr⟩ := execParsed_of_staged env req fs b name hc hb hm hf ht
    rw [htr] at h
    simp only [List.mem_cons, reduceCtorEq, false_or, List.mem_append, List.mem_singleton,
      or_false, List.not_mem_nil, openedPart_no_spawn env req "stdin" argv sin r] at h
    rw [ho]
    exact ⟨⟨b, hb, (stageAndRun_spawn env b _ _ _ _ _ _ argv sin r h).1⟩,
      (stageAndRun_spawn env b _ _ _ _ _ _ argv sin r h).2⟩

theorem execParsed_tempFile (env : Env) (req : Request) (fs : Files)
    (name : String) (h : Event.tempFile name ∈ (execParsed env req fs).trace) :
    fileExists name (execParsed env req fs).files = false ∧
    (execParsed env req fs).trace.getLast? = some (Event.remove name) := by
  rcases execParsed_cases env req fs with
    hc | ⟨hc, msg, hb⟩ | ⟨hc, b, hb, hm | ⟨hm, ⟨err, hf⟩ | ⟨hf, ⟨err, ht⟩ | ⟨nm, ht⟩⟩⟩⟩
  · simp [execParsed_of_empty_command env req fs hc, Result.pure] at h
  · simp [execParsed_of_bad_become env req fs msg hc hb, Result.pure] at h
  · rw [execParsed_of_form env req fs b hc hb hm] at h
    exact absurd h (runCommand_no_tempFile env b _ _ _ _ _ name)
  · simp [execParsed_of_unreadable env req fs b err hc hb hm hf, Result.pure] at h
  · rw [(execParsed_of_no_tempFile env req fs b err hc hb hm hf ht).2.2] at h
    exact absurd h (openedPart_no_tempFile env req "stdin" name)
  · obtain ⟨_, hfiles, htr⟩ := execParsed_of_staged env req fs b nm hc hb hm hf ht
    rw [htr] at h
    simp only [List.mem_cons, Event.tempFile.injEq, List.mem_append, List.mem_singleton,
      reduceCtorEq, or_false, List.not_mem_nil, false_or,
      openedPart_no_tempFile env req "stdin" name] at h
    have hname : name = nm := by
      rcases h with h | h
      · exact h
      · exact absurd h (stageAndRun_no_tempFile env b _ _ _ _ _ _ name)
    subst hname
    rw [hfiles, htr]
    refine ⟨fileExists_removeFile _ _, ?_⟩
    rw [← List.cons_append, ← List.append_assoc, List.getLast?_append]
    simp

/-- A child recorded in the trace of `ExecCommand` was run on the vector built
from the request, and the response is the result of that child. -/
theorem ExecCommand_spawn (env : Env) (AuthToken : String) (req : Request) (fs : Files)
    (argv : List String) (sin : Option String) (r : RunResult)
    (h : Event.spawn argv sin r ∈ (ExecCommand env AuthToken req fs).trace) :
    (∃ b, decodeBecome env (req.FormValue "become") = .ok b ∧
      cmdArgs b (becomeMethodOf req) (executableOf req) (req.FormValue "command") = .ok argv) ∧
    (ExecCommand env AuthToken req fs).out = resultOf r ∧
    ∃ fs1, r = (env.Run argv sin fs1).1 := by
  cases hv : ValidateHeader AuthToken req with
  | some e => simp [ExecCommand, hv, Result.pure] at h
  | none =>
    obtain ⟨ho, _, htr⟩ := ExecCommand_of_valid env AuthToken req fs hv
    rw [htr, List.mem_append] at h
    rcases h with h | h
    · exact absurd h (ParseMultipartForm_no_spawn env req fs argv sin r)
    · rw [ho]
      exact execParsed_spawn env req _ argv sin r h

/-- A temporary file recorded in the trace of `ExecCommand` is gone from
storage when the handler is done, and its removal is the last effect. -/
theorem ExecCommand_tempFile (env : Env) (AuthToken : String) (req : Request) (fs : Files)
    (name : String) (h : Event.tempFile name ∈ (ExecCommand env AuthToken req fs).trace) :
    fileExists name (ExecCommand env AuthToken req fs).files = false ∧
    (ExecCommand env AuthToken req fs).trace.getLast? = some (Event.remove name) := by
  cases hv : ValidateHeader AuthToken req with
  | some e => simp [ExecCommand, hv, Result.pure] at h
  | none =>
    obtain ⟨_, hfiles, htr⟩ := ExecCommand_of_valid env AuthToken req fs hv
    rw [htr, List.mem_append] at h
    rcases h with h | h
    · exact absurd h (ParseMultipartForm_no_tempFile env req fs name)
    · obtain ⟨h1, h2⟩ := execParsed_tempFile env req _ name h
      rw [hfiles, htr]
      refine ⟨h1, ?_⟩
      rw [List.getLast?_append, h2]
      rfl

/-! ## Authentication -/

/-- Claim C1. Whenever `ValidateHeader` fails, `ExecCommand` and `PutFile` both
answer 401 with the same fixed message, which does not mention the presented
credential, and they do so without any effect: the trace is empty (no child
process, no file created or written) and storage is unchanged. -/
theorem unauthorized_short_circuits (env : Env) (AuthToken : String) (req : Request)
    (fs : Files) (h : ValidateHeader AuthToken req ≠ none) :
    ((ExecCommand env AuthToken req fs).out =
        .ret StatusUnauthorized (.text "认证失败，token不合法\n") ∧
      (ExecCommand env AuthToken req fs).trace = [] ∧
      (ExecCommand env AuthToken req fs).files = fs) ∧
    ((PutFile env AuthToken req fs).out = (StatusUnauthorized, "认证失败，token不合法\n") ∧
      (PutFile env AuthToken req fs).trace = [] ∧
      (PutFile env AuthToken req fs).files = fs) := by
  cases hv : ValidateHeader AuthToken req with
  | none => exact absurd hv h
  | some e => simp [ExecCommand, PutFile, hv, Result.pure]

theorem unauthorized_short_circuits_witness :
    ValidateHeader "s3cret" wrongTokenRequest ≠ none ∧
    ((ExecCommand quietEnv "s3cret" wrongTokenRequest []).out =
        .ret StatusUnauthorized (.text "认证失败，token不合法\n") ∧
      (ExecCommand quietEnv "s3cret" wrongTokenRequest []).trace = [] ∧
      (ExecCommand quietEnv "s3cret" wrongTokenRequest []).files = []) ∧
    ((PutFile quietEnv "s3cret" wrongTokenRequest []).out =
        (StatusUnauthorized, "认证失败，token不合法\n") ∧
      (PutFile quietEnv "s3cret" wrongTokenRequest []).trace = [] ∧
      (PutFile quietEnv "s3cret" wrongTokenRequest []).files = []) :=
  ⟨by decide, unauthorized_short_circuits quietEnv "s3cret" wrongTokenRequest [] (by decide)⟩

/-- Claim C2. `ValidateHeader` returns no error exactly when the presented
credential, extracted from the `Authorization` header as the specification
words it, equals the configured token; an absent header is read as the empty
string. -/
theorem ValidateHeader_accepts_iff_presented (AuthToken : String) (req : Request) :
    (ValidateHeader AuthToken req = none ↔
      presented (req.HeaderGet "Authorization") = AuthToken) ∧
    (req.Header = [] → req.HeaderGet "Authorization" = "") := by
  refine ⟨ValidateHeader_eq_none_iff AuthToken req, ?_⟩
  intro h
  simp [Request.HeaderGet, h, firstValue]

/-- Claim C3, the claim as stated fails: with static-token authentication
enabled and an empty configured token, a request without an `Authorization`
header passes `ValidateHeader`, `ExecCommand` runs its command and answers 200,
and `PutFile` writes the file and answers 200. -/
theorem empty_token_accepts_empty_header :
    ValidateHeader (configuredAuthToken emptyTokenConfig) bareRequest = none ∧
    (ExecCommand quietEnv (configuredAuthToken emptyTokenConfig)
        bareRequest []).out =
      .ret StatusOK (.json { status := 0, stdin := "", stdout := "ok", stderr := "" }) ∧
    (PutFile quietEnv (configuredAuthToken emptyTokenConfig)
        bareUpload []).out = (StatusOK, "") := by
  decide

/-- Claim C3, amended. With static-token authentication enabled and an empty
configured token, `ValidateHeader` accepts exactly the requests whose presented
credential is empty; a request whose `Authorization` header is empty or absent
is accepted, and neither `ExecCommand` nor `PutFile` answers 401 to it. -/
theorem empty_token_accepts_exactly_empty (cfg : HttpAuth) (req : Request)
    (hen : cfg.Enabled = true) (htok : cfg.Token = "") :
    (ValidateHeader (configuredAuthToken cfg) req = none ↔
      presented (req.HeaderGet "Authorization") = "") ∧
    (req.HeaderGet "Authorization" = "" →
      ValidateHeader (configuredAuthToken cfg) req = none ∧
      ∀ (env : Env) (fs : Files),
        (∀ body, (ExecCommand env (configuredAuthToken cfg) req fs).out ≠
          .ret StatusUnauthorized body) ∧
        (PutFile env (configuredAuthToken cfg) req fs).out.1 ≠ StatusUnauthorized) := by
  have htoken : configuredAuthToken cfg = "" := by simp [configuredAuthToken, hen, htok]
  rw [htoken]
  refine ⟨ValidateHeader_eq_none_iff "" req, ?_⟩
  intro hh
  have hv : ValidateHeader "" req = none := by
    rw [ValidateHeader_eq_none_iff, hh]
    decide
  refine ⟨hv, ?_⟩
  intro env fs
  constructor
  · intro body hb
    rcases ExecCommand_out_of_valid env "" req fs hv with ⟨m, hm⟩ | ⟨b, hm⟩ | ⟨b, hm⟩ <;>
      rw [hm] at hb <;> simp [StatusInternalServerError, StatusOK, StatusUnauthorized] at hb
  · rcases PutFile_out_of_valid env "" req fs hv with hm | hm <;>
      rw [hm] <;> decide

theorem empty_token_accepts_exactly_empty_witness :
    emptyTokenConfig.Enabled = true ∧ emptyTokenConfig.Token = "" ∧
    bareRequest.HeaderGet "Authorization" = "" ∧
    ValidateHeader (configuredAuthToken emptyTokenConfig) bareRequest = none ∧
    ∀ (env : Env) (fs : Files),
      (∀ body, (ExecCommand env (configuredAuthToken emptyTokenConfig) bareRequest fs).out ≠
        .ret StatusUnauthorized body) ∧
      (PutFile env (configuredAuthToken emptyTokenConfig) bareRequest fs).out.1 ≠
        StatusUnauthorized :=
  ⟨rfl, rfl, by decide,
    (empty_token_accepts_exactly_empty emptyTokenConfig bareRequest rfl rfl).2 (by decide)⟩

/-- Claim C4, the code at the failing input: with static-token authentication
disabled the package variable keeps its zero value, and a request carrying
`Basic` credentials for the directory service is rejected by `ValidateHeader`;
`ExecCommand` and `PutFile` answer 401 without any effect. -/
theorem disabled_static_check_rejects_credentials :
    configuredAuthToken disabledConfig = "" ∧
    ValidateHeader (configuredAuthToken disabledConfig)
        basicAuthRequest = some "认证失败，token不合法" ∧
    (ExecCommand quietEnv (configuredAuthToken disabledConfig)
        basicAuthRequest []).out = .ret StatusUnauthorized (.text "认证失败，token不合法\n") ∧
    (ExecCommand quietEnv (configuredAuthToken disabledConfig)
        basicAuthRequest []).trace = [] ∧
    (PutFile quietEnv (configuredAuthToken disabledConfig)
        basicAuthRequest []).out = (StatusUnauthorized, "认证失败，token不合法\n") := by
  decide

/-! ## Building the command -/

theorem cmdArgs_of_unsupported (m e c : String) (hm : m ≠ "sudo") :
    cmdArgs true m e c = .error ("unsupported become method '" ++ m ++ "'") := by
  simp [cmdArgs, hm]

/-- Claim C5. The argument vector built by `ExecCommand` is the reference
vector: `[e, "-c", c]` without escalation, `["sudo", "-n", e, "-c", c]` with
escalation through `sudo`, where `e` is `/bin/sh` when no executable is sent and
the method is `sudo` when none is sent; for any other method no vector is built
and the response is an internal error whose message holds the method between
quotes. A built vector ends in the command, in one piece, and has at most 5
elements; every child `ExecCommand` runs is run on the reference vector. -/
theorem cmdArgs_eq_reference (c e : String) (b : Bool) (m : String) :
    (cmdArgs b (if m = "" then "sudo" else m) (if e = "" then "/bin/sh" else e) c =
      match referenceArgv c e b m with
      | some v => .ok v
      | none => .error ("unsupported become method '" ++ (if m = "" then "sudo" else m) ++ "'")) ∧
    (∀ v, cmdArgs b (if m = "" then "sudo" else m) (if e = "" then "/bin/sh" else e) c = .ok v →
      v.getLast? = some c ∧ v.length ≤ 5) ∧
    (referenceArgv c e b m = none →
      ∀ (env : Env) (stdin : Option String) (fs : Files),
        (runCommand env b (if m = "" then "sudo" else m) (if e = "" then "/bin/sh" else e) c
            stdin fs).out =
          .ret 500 (.text ("unsupported become method '" ++ (if m = "" then "sudo" else m) ++ "'")) ∧
        (runCommand env b (if m = "" then "sudo" else m) (if e = "" then "/bin/sh" else e) c
            stdin fs).trace = []) ∧
    (∀ (env : Env) (AuthToken : String) (req : Request) (fs : Files) (argv : List String)
        (sin : Option String) (r : RunResult),
      req.FormValue "command" = c → req.FormValue "executable" = e →
      req.FormValue "becomeMethod" = m →
      decodeBecome env (req.FormValue "become") = .ok b →
      Event.spawn argv sin r ∈ (ExecCommand env AuthToken req fs).trace →
      referenceArgv c e b m = some argv) := by
  have hbuild : cmdArgs b (if m = "" then "sudo" else m) (if e = "" then "/bin/sh" else e) c =
      match referenceArgv c e b m with
      | some v => .ok v
      | none =>
        .error ("unsupported become method '" ++ (if m = "" then "sudo" else m) ++ "'") := by
    cases b
    · simp [cmdArgs, referenceArgv]
    · by_cases hm : (if m = "" then "sudo" else m) = "sudo"
      · simp [cmdArgs, referenceArgv, hm]
      · simp [cmdArgs, referenceArgv, hm]
  refine ⟨hbuild, ?_, ?_, ?_⟩
  · intro v hv
    cases b
    · simp only [cmdArgs, Bool.false_eq_true, if_false, List.nil_append, Except.ok.injEq] at hv
      subst hv
      simp
    · by_cases hm : (if m = "" then "sudo" else m) = "sudo"
      · simp only [cmdArgs, hm, if_true, List.nil_append, List.cons_append,
          Except.ok.injEq] at hv
        subst hv
        simp
      · simp [cmdArgs, hm] at hv
  · intro hnone env stdin fs
    rw [hnone] at hbuild
    have := runCommand_of_error env b _ _ c _ stdin fs hbuild
    exact ⟨by simpa [StatusInternalServerError] using this.1, this.2.1⟩
  · intro env AuthToken req fs argv sin r hc he hm hb hsp
    obtain ⟨⟨b1, hb1, hargs⟩, _⟩ := ExecCommand_spawn env AuthToken req fs argv sin r hsp
    rw [hb] at hb1
    cases hb1
    simp only [becomeMethodOf, executableOf, hc, he, hm] at hargs
    rw [hbuild] at hargs
    cases href : referenceArgv c e b m with
    | none => rw [href] at hargs; simp at hargs
    | some v => rw [href] at hargs; simpa using hargs

/-! ## Running the command -/

/-- Claim C6, the claim as stated fails: a child that prints the single byte
`0xFF` and exits with code 0 is reported with status 200 and a `stdout` field
holding U+FFFD, whose bytes are not the captured stream. -/
theorem marshalled_stdout_differs_from_captured :
    Event.spawn ["/bin/sh", "-c", "printf '\\377'"] none
        { outcome := .exited 0, stdout := [0xFF], stderr := [] }
      ∈ (ExecCommand binaryEnv "s3cret" printfExec []).trace ∧
    (ExecCommand binaryEnv "s3cret" printfExec []).out =
      .ret 200 (.json { status := 0, stdin := "", stdout := "\uFFFD", stderr := "" }) ∧
    utf8 "\uFFFD".data ≠ [0xFF] := by
  decide

/-- Claim C6, amended. Whenever `ExecCommand` gets to run the child, it answers
200, and the result it marshals has status 0 exactly for a child that started
and exited with code 0 without trouble and status 1 for every other outcome, an
empty `stdin` field, and in `stdout` and `stderr` the captured streams read as
UTF-8 with every byte that is not part of a valid encoding replaced by U+FFFD;
a captured stream that is the UTF-8 encoding of a text is reported as that
text. -/
theorem ExecCommand_reports_marshalled_child (env : Env) (AuthToken : String) (req : Request)
    (fs : Files) (argv : List String) (sin : Option String) (r : RunResult)
    (h : Event.spawn argv sin r ∈ (ExecCommand env AuthToken req fs).trace) :
    (ExecCommand env AuthToken req fs).out =
      .ret 200 (.json
        { status := if r.outcome = RunOutcome.exited 0 then 0 else 1
          stdin := ""
          stdout := jsonText r.stdout
          stderr := jsonText r.stderr }) ∧
    (∀ text : String, r.stdout = utf8 text.data → jsonText r.stdout = text) ∧
    (∀ text : String, r.stderr = utf8 text.data → jsonText r.stderr = text) ∧
    (∃ fs1, r = (env.Run argv sin fs1).1) := by
  obtain ⟨_, hout, hrun⟩ := ExecCommand_spawn env AuthToken req fs argv sin r h
  refine ⟨by simpa [resultOf, StatusOK] using hout, ?_, ?_, hrun⟩
  · intro text ht
    rw [ht, jsonText_utf8]
  · intro text ht
    rw [ht, jsonText_utf8]

theorem ExecCommand_reports_marshalled_child_witness :
    (Event.spawn ["/bin/sh", "-c", "id"] none
        { outcome := .exited 0, stdout := utf8 "ok".data, stderr := [] }
      ∈ (ExecCommand quietEnv "s3cret" plainExec []).trace ∧
      (ExecCommand quietEnv "s3cret" plainExec []).out =
        .ret 200 (.json { status := 0, stdin := "", stdout := "ok", stderr := "" }) ∧
      jsonText (utf8 "ok".data) = "ok") ∧
    (Event.spawn ["/bin/sh", "-c", "printf '\\377'"] none
        { outcome := .exited 0, stdout := [0xFF], stderr := [] }
      ∈ (ExecCommand binaryEnv "s3cret" printfExec []).trace ∧
      (ExecCommand binaryEnv "s3cret" printfExec []).out =
        .ret 200 (.json { status := 0, stdin := "", stdout := "\uFFFD", stderr := "" })) :=
  have h1 := ExecCommand_reports_marshalled_child quietEnv "s3cret" plainExec []
    ["/bin/sh", "-c", "id"] none { outcome := .exited 0, stdout := utf8 "ok".data, stderr := [] }
    (by decide)
  have h2 := ExecCommand_reports_marshalled_child binaryEnv "s3cret" printfExec []
    ["/bin/sh", "-c", "printf '\\377'"] none
    { outcome := .exited 0, stdout := [0xFF], stderr := [] } (by decide)
  ⟨⟨by decide, h1.1.trans (by decide), h1.2.1 "ok" rfl⟩,
    ⟨by decide, h2.1.trans (by decide)⟩⟩

/-! ## Staging the input -/

theorem stageAndRun_of_nil (env : Env) (b : Bool) (m e c name : String) (fs : Files) :
    stageAndRun env b m e c none name fs =
      Result.pure (.panic "runtime error: invalid memory address or nil pointer dereference")
        fs := by
  simp [stageAndRun]

theorem stageAndRun_of_staged (env : Env) (b : Bool) (m e c data name : String) (fs : Files)
    (hcopy : env.copyFail name data = none) (hopen : env.openFail name = none) :
    (stageAndRun env b m e c (some data) name fs).out =
      (runCommand env b m e c (some (readFile name (writeFile name data fs)))
        (writeFile name data fs)).out ∧
    (stageAndRun env b m e c (some data) name fs).files =
      (runCommand env b m e c (some (readFile name (writeFile name data fs)))
        (writeFile name data fs)).files ∧
    (stageAndRun env b m e c (some data) name fs).trace =
      Event.write name data :: Event.reopen name ::
        (runCommand env b m e c (some (readFile name (writeFile name data fs)))
          (writeFile name data fs)).trace := by
  have hc : env.Copy name data = (data, none) := by simp [Env.Copy, hcopy]
  simp [stageAndRun, hc, hopen]

/-- On every multipart request that gets as far as staging and has no `stdin`
field, `ExecCommand` creates the temporary file, panics in `io.Copy`, and the
deferred call removes the file; no child is run. -/
theorem ExecCommand_of_missing_stdin (env : Env) (AuthToken : String) (req : Request)
    (fs : Files) (b : Bool) (name : String) (hv : ValidateHeader AuthToken req = none)
    (hc : req.FormValue "command" ≠ "")
    (hb : decodeBecome env (req.FormValue "become") = .ok b)
    (hm : HasPrefix (req.HeaderGet "Content-Type") "multipart/form-data" = true)
    (hf : req.FormFile "stdin" = .ErrMissingFile)
    (ht : env.TempFile (ParseMultipartForm env req fs).files = .ok name) :
    (ExecCommand env AuthToken req fs).out =
      .panic "runtime error: invalid memory address or nil pointer dereference" ∧
    (ExecCommand env AuthToken req fs).trace =
      (ParseMultipartForm env req fs).trace ++ [Event.tempFile name, Event.remove name] := by
  have hf1 : ∀ e, req.FormFile "stdin" ≠ .failed e := by simp [hf]
  obtain ⟨vo, _, vt⟩ := ExecCommand_of_valid env AuthToken req fs hv
  obtain ⟨ho, _, htr⟩ := execParsed_of_staged env req _ b name hc hb hm hf1 ht
  have hopened : openedPart env req "stdin" = [] := by simp [openedPart, hf]
  rw [vo, vt, ho, htr, hf, hopened]
  simp [inputOf, stageAndRun_of_nil, Result.pure]

/-- Claim C7, the code at the failing input: an authenticated multipart request
with the command `id` and no `stdin` field passes every check, the missing
field is let through, and then `ExecCommand` panics while copying from the nil
file: no child is run and no result is returned. -/
theorem missing_stdin_panics :
    ValidateHeader "s3cret" pipelinedNoStdin = none ∧
    pipelinedNoStdin.FormFile "stdin" = .ErrMissingFile ∧
    (ExecCommand quietEnv "s3cret" pipelinedNoStdin []).out =
      .panic "runtime error: invalid memory address or nil pointer dereference" ∧
    (ExecCommand quietEnv "s3cret" pipelinedNoStdin []).trace =
      [Event.tempFile "/tmp/ansible-stdin042", Event.remove "/tmp/ansible-stdin042"] := by
  decide

/-- Claim C8. A temporary file that `ExecCommand` has created is absent from
storage when `ExecCommand` is done, whatever happened after its creation, and
its removal is the last thing the handler does. -/
theorem tempFile_removed_on_return (env : Env) (AuthToken : String) (req : Request)
    (fs : Files) (name : String)
    (h : Event.tempFile name ∈ (ExecCommand env AuthToken req fs).trace) :
    fileExists name (ExecCommand env AuthToken req fs).files = false ∧
    (ExecCommand env AuthToken req fs).trace.getLast? = some (Event.remove name) :=
  ExecCommand_tempFile env AuthToken req fs name h

theorem tempFile_removed_on_return_witness :
    Event.tempFile "/tmp/ansible-stdin042" ∈
      (ExecCommand quietEnv "s3cret" pipelinedExec []).trace ∧
    (fileExists "/tmp/ansible-stdin042"
        (ExecCommand quietEnv "s3cret" pipelinedExec []).files = false ∧
      (ExecCommand quietEnv "s3cret" pipelinedExec []).trace.getLast? =
        some (Event.remove "/tmp/ansible-stdin042")) :=
  ⟨by decide,
    tempFile_removed_on_return quietEnv "s3cret" pipelinedExec [] "/tmp/ansible-stdin042"
      (by decide)⟩

/-! ## Parameter errors -/

/-- Claim C9, the claim as stated fails, in two ways. A multipart request that
asks for escalation through `su` is rejected for the unsupported method only
after its input has been staged: the temporary file has been created, written
and reopened at the moment of rejection. A multipart request without a command
whose `stdin` part the HTTP library writes to a temporary file of its own is
rejected for the missing command after that file has been written. -/
theorem parameter_errors_touch_files :
    (ValidateHeader "s3cret" pipelinedSu = none ∧
      (ExecCommand quietEnv "s3cret" pipelinedSu []).out =
        .ret 500 (.text "unsupported become method 'su'") ∧
      (ExecCommand quietEnv "s3cret" pipelinedSu []).trace =
        [Event.tempFile "/tmp/ansible-stdin042",
         Event.write "/tmp/ansible-stdin042" "print(1)",
         Event.reopen "/tmp/ansible-stdin042",
         Event.remove "/tmp/ansible-stdin042"]) ∧
    (ValidateHeader "s3cret" pipelinedNoCommand = none ∧
      (ExecCommand spillEnv "s3cret" pipelinedNoCommand []).out =
        .ret 500 (.text "command is a required parameter\n") ∧
      (ExecCommand spillEnv "s3cret" pipelinedNoCommand []).trace =
        [Event.spill "/tmp/multipart-118" "print(1)"] ∧
      (ExecCommand spillEnv "s3cret" pipelinedNoCommand []).files =
        [("/tmp/multipart-118", "print(1)")]) := by
  decide

/-- Claim C9, amended. A request rejected for an empty command or for a
`become` value that `strconv.Atoi` does not accept gets its internal-error
response before any child is run and before the handler creates its temporary
file: the only effects by then are those of the HTTP library parsing the body,
which writes its own temporary files and may remove them again, and there is
none at all when the library spills nothing. A request rejected for an
unsupported method never has a child run; form-encoded, its only effects are
again those of parsing the body; multipart with its input staged, it is
rejected after the part has been opened and the temporary file has been
created, written and reopened, and that file is removed on return. -/
theorem parameter_errors_short_circuit (env : Env) (AuthToken : String) (req : Request)
    (fs : Files) (hv : ValidateHeader AuthToken req = none) :
    (req.FormValue "command" = "" →
      (ExecCommand env AuthToken req fs).out =
        .ret 500 (.text "command is a required parameter\n") ∧
      (ExecCommand env AuthToken req fs).trace = (ParseMultipartForm env req fs).trace ∧
      (ExecCommand env AuthToken req fs).files = (ParseMultipartForm env req fs).files) ∧
    (req.FormValue "command" ≠ "" → req.FormValue "become" ≠ "" →
      Atoi (req.FormValue "become") = none →
      (ExecCommand env AuthToken req fs).out =
        .ret 500 (.text ("error decoding 'become' value: " ++
          env.AtoiError (req.FormValue "become"))) ∧
      (ExecCommand env AuthToken req fs).trace = (ParseMultipartForm env req fs).trace ∧
      (ExecCommand env AuthToken req fs).files = (ParseMultipartForm env req fs).files) ∧
    (req.FormValue "command" ≠ "" →
      decodeBecome env (req.FormValue "become") = .ok true →
      becomeMethodOf req ≠ "sudo" →
      (∀ argv sin r, Event.spawn argv sin r ∉ (ExecCommand env AuthToken req fs).trace) ∧
      (HasPrefix (req.HeaderGet "Content-Type") "multipart/form-data" = false →
        (ExecCommand env AuthToken req fs).out =
          .ret 500 (.text ("unsupported become method '" ++ becomeMethodOf req ++ "'")) ∧
        (ExecCommand env AuthToken req fs).trace = (ParseMultipartForm env req fs).trace ∧
        (ExecCommand env AuthToken req fs).files = (ParseMultipartForm env req fs).files) ∧
      (HasPrefix (req.HeaderGet "Content-Type") "multipart/form-data" = true →
        ∀ data name, req.FormFile "stdin" = .file data →
          env.TempFile (ParseMultipartForm env req fs).files = .ok name →
          env.copyFail name data = none → env.openFail name = none →
          (ExecCommand env AuthToken req fs).out =
            .ret 500 (.text ("unsupported become method '" ++ becomeMethodOf req ++ "'")) ∧
          (ExecCommand env AuthToken req fs).trace =
            (ParseMultipartForm env req fs).trace ++ openedPart env req "stdin" ++
              [Event.tempFile name, Event.write name data, Event.reopen name,
               Event.remove name] ∧
          fileExists name (ExecCommand env AuthToken req fs).files = false)) ∧
    (∀ ev ∈ (ParseMultipartForm env req fs).trace,
      (∃ sp ∈ env.Spill req, ev = Event.spill sp.name sp.data) ∨
      (∃ sp ∈ env.Spill req, ev = Event.remove sp.name)) ∧
    (openedPart env req "stdin" = [] ∨
      ∃ sp ∈ env.Spill req, openedPart env req "stdin" = [Event.openPart sp.name]) ∧
    (env.Spill req = [] →
      (ParseMultipartForm env req fs).trace = [] ∧
      (ParseMultipartForm env req fs).files = fs ∧
      openedPart env req "stdin" = []) := by
  obtain ⟨vo, vf, vt⟩ := ExecCommand_of_valid env AuthToken req fs hv
  refine ⟨?_, ?_, ?_, fun ev hev => ParseMultipartForm_trace env req fs ev hev,
    openedPart_cases env req "stdin",
    fun hs => ⟨(ParseMultipartForm_of_no_spill env req fs hs).1,
      (ParseMultipartForm_of_no_spill env req fs hs).2,
      openedPart_of_no_spill env req "stdin" hs⟩⟩
  · intro hc
    rw [vo, vf, vt, execParsed_of_empty_command env req _ hc]
    simp [Result.pure, StatusInternalServerError]
  · intro hc hne hat
    have hb : decodeBecome env (req.FormValue "become") =
        .error ("error decoding 'become' value: " ++ env.AtoiError (req.FormValue "become")) := by
      simp [decodeBecome, hne, hat]
    rw [vo, vf, vt, execParsed_of_bad_become env req _ _ hc hb]
    simp [Result.pure, StatusInternalServerError]
  · intro hc hb hmeth
    have herr := cmdArgs_of_unsupported (becomeMethodOf req) (executableOf req)
      (req.FormValue "command") hmeth
    refine ⟨?_, ?_, ?_⟩
    · intro argv sin r hsp
      obtain ⟨⟨b1, hb1, hargs⟩, _⟩ := ExecCommand_spawn env AuthToken req fs argv sin r hsp
      rw [hb] at hb1
      cases hb1
      rw [herr] at hargs
      cases hargs
    · intro hm
      rw [vo, vf, vt, execParsed_of_form env req _ true hc hb hm]
      have := runCommand_of_error env true _ _ _ _ none (ParseMultipartForm env req fs).files herr
      exact ⟨by simpa [StatusInternalServerError] using this.1, by simp [this.2.1], this.2.2⟩
    · intro hm data name hf ht hcopy hopen
      have hf1 : ∀ e, req.FormFile "stdin" ≠ .failed e := by simp [hf]
      obtain ⟨ho, hfiles, htr⟩ := execParsed_of_staged env req _ true name hc hb hm hf1 ht
      obtain ⟨so, _, st⟩ := stageAndRun_of_staged env true (becomeMethodOf req)
        (executableOf req) (req.FormValue "command") data name
        (writeFile name "" (ParseMultipartForm env req fs).files) hcopy hopen
      have hrun := runCommand_of_error env true _ _ _ _
        (some (readFile name (writeFile name data
          (writeFile name "" (ParseMultipartForm env req fs).files))))
        (writeFile name data (writeFile name "" (ParseMultipartForm env req fs).files)) herr
      rw [hf] at ho hfiles htr
      simp only [inputOf] at ho hfiles htr
      rw [so, hrun.1] at ho
      rw [st, hrun.2.1] at htr
      rw [vo, vf, vt, ho, htr, hfiles]
      exact ⟨by simp [StatusInternalServerError], by simp, fileExists_removeFile _ _⟩

theorem parameter_errors_short_circuit_witness :
    (ValidateHeader "s3cret" pipelinedNoCommand = none ∧
      pipelinedNoCommand.FormValue "command" = "" ∧
      (ExecCommand quietEnv "s3cret" pipelinedNoCommand []).trace = [] ∧
      (ExecCommand spillEnv "s3cret" pipelinedNoCommand []).trace =
        [Event.spill "/tmp/multipart-118" "print(1)"]) ∧
    (ValidateHeader "s3cret" pipelinedBadBecome = none ∧
      Atoi (pipelinedBadBecome.FormValue "become") = none ∧
      (ExecCommand quietEnv "s3cret" pipelinedBadBecome []).trace = []) ∧
    (ValidateHeader "s3cret" pipelinedSu = none ∧
      pipelinedSu.FormValue "command" ≠ "" ∧
      decodeBecome quietEnv (pipelinedSu.FormValue "become") = .ok true ∧
      becomeMethodOf pipelinedSu ≠ "sudo" ∧
      HasPrefix (pipelinedSu.HeaderGet "Content-Type") "multipart/form-data" = true ∧
      (ExecCommand quietEnv "s3cret" pipelinedSu []).out =
        .ret 500 (.text ("unsupported become method '" ++ becomeMethodOf pipelinedSu ++ "'")) ∧
      fileExists "/tmp/ansible-stdin042" (ExecCommand quietEnv "s3cret" pipelinedSu []).files =
        false) :=
  have h1 := (parameter_errors_short_circuit quietEnv "s3cret" pipelinedNoCommand []
    (by decide)).1 (by decide)
  have h1s := (parameter_errors_short_circuit spillEnv "s3cret" pipelinedNoCommand []
    (by decide)).1 (by decide)
  have h2 := (parameter_errors_short_circuit quietEnv "s3cret" pipelinedBadBecome []
    (by decide)).2.1 (by decide) (by decide) (by decide)
  have h3 := ((parameter_errors_short_circuit quietEnv "s3cret" pipelinedSu []
    (by decide)).2.2.1 (by decide) rfl (by decide)).2.2 (by decide)
    "print(1)" "/tmp/ansible-stdin042" (by decide) rfl (by decide) (by decide)
  ⟨⟨by decide, by decide, h1.2.1.trans (by decide), h1s.2.1.trans (by decide)⟩,
    ⟨by decide, by decide, h2.2.1.trans (by decide)⟩,
    ⟨by decide, by decide, rfl, by decide, by decide, h3.1, h3.2.2⟩⟩

/-! ## Uploads -/

theorem PutFile_of_create_failure (env : Env) (AuthToken : String) (req : Request)
    (fs : Files) (src err : String) (hv : ValidateHeader AuthToken req = none)
    (hf : req.FormFile "src" = .file src)
    (hcr : env.createFail (req.FormValue "dest") = some err) :
    (PutFile env AuthToken req fs).out = (500, err) ∧
    (PutFile env AuthToken req fs).trace =
      (ParseMultipartForm env req fs).trace ++ openedPart env req "src" ∧
    (PutFile env AuthToken req fs).files = (ParseMultipartForm env req fs).files := by
  simp [PutFile, putParsed, hv, hf, hcr, StatusInternalServerError]

/-- Once the destination is created, `PutFile` answers 200 with an empty body
whether or not the copy went through. -/
theorem PutFile_of_created (env : Env) (AuthToken : String) (req : Request)
    (fs : Files) (src : String) (hv : ValidateHeader AuthToken req = none)
    (hf : req.FormFile "src" = .file src)
    (hcr : env.createFail (req.FormValue "dest") = none) :
    (PutFile env AuthToken req fs).out = (200, "") ∧
    (PutFile env AuthToken req fs).trace =
      (ParseMultipartForm env req fs).trace ++ openedPart env req "src" ++
        [Event.create (req.FormValue "dest"),
         Event.write (req.FormValue "dest") (env.Copy (req.FormValue "dest") src).1] := by
  simp [PutFile, putParsed, hv, hf, hcr, StatusOK]

/-- Claim C10, the code at the failing input: the destination is created, the
copy stops after two of the five characters with `no space left on device`, and
`PutFile` still answers 200 with an empty body, leaving a truncated file. -/
theorem PutFile_ignores_write_failure :
    ValidateHeader "s3cret" tokenUpload = none ∧
    fullDiskEnv.Copy "/etc/motd" "hello" = ("he", some "no space left on device") ∧
    (PutFile fullDiskEnv "s3cret" tokenUpload []).out = (200, "") ∧
    (PutFile fullDiskEnv "s3cret" tokenUpload []).files = [("/etc/motd", "he")] := by
  decide

end Ansible
